import Mathlib

/-!
Shallow embedding of the `plaatobbc` Home Assistant integration
(`custom_components/plaatobbc/api.py` and `sensor.py`).

Python JSON values are modelled by the inductive type `PyVal` (JSON null,
booleans, ints, floats, strings, lists, dicts, plus `datetime` objects for
the sensor layer).  Python floats are modelled by `ℚ`; dicts are modelled
as association lists with unique keys and first-match lookup.  The HTTP
layer (`YourApiClient._get`) is modelled as an oracle
`Get : String → Params → Except Unit PyVal`: an `Except.error` models a
raised exception (HTTP error / timeout), an `Except.ok` the parsed JSON.
Code paths of `fetch_readings` that can raise Python `TypeError` or
`AttributeError` on ill-shaped data (iterating a non-iterable, calling
`.get` on a non-dict) are embedded in the `Except Unit` monad as well.
`str()` of containers, floats and datetimes is abstracted by fixed
placeholder renderings (no claim depends on those renderings).
-/

/-- A Python value as it occurs in this integration: a JSON value
(`None`, `bool`, `int`, `float`, `str`, `list`, `dict`) or a
`datetime.datetime` (sensor layer only).  Floats are modelled by `ℚ`;
the `tz` field of a datetime is its UTC offset in minutes, `none` for a
naive (timezone-unaware) datetime. -/
inductive PyVal where
  | null : PyVal
  | bool (b : Bool) : PyVal
  | int (n : Int) : PyVal
  | float (q : ℚ) : PyVal
  | str (s : String) : PyVal
  | arr (xs : List PyVal) : PyVal
  | obj (kvs : List (String × PyVal)) : PyVal
  | datetime (year month day hour minute second : ℕ) (tz : Option Int) : PyVal
deriving Repr

/-- A Python dict (JSON object), as an association list with unique keys. -/
abbrev Dict := List (String × PyVal)

/-- First-match association-list lookup (the domain of a Python dict). -/
def dlookup {α : Type} (k : String) : List (String × α) → Option α
  | [] => none
  | (k', v) :: rest => if k' = k then some v else dlookup k rest

/-- Python `d.get(k)`: the stored value, or `None` when the key is absent. -/
def pyGet (kvs : Dict) (k : String) : PyVal :=
  (dlookup k kvs).getD .null

/-- Test for the value `None`. -/
def PyVal.isNull : PyVal → Bool
  | .null => true
  | _ => false

/-- Python `v is False` (identity with the `False` singleton). -/
def PyVal.isFalseLit : PyVal → Bool
  | .bool false => true
  | _ => false

/-- Python `v is True` (identity with the `True` singleton). -/
def PyVal.isTrueLit : PyVal → Bool
  | .bool true => true
  | _ => false

/-- Python truthiness (`bool(v)`) for the modelled values. -/
def pyTruthy : PyVal → Bool
  | .null => false
  | .bool b => b
  | .int n => decide (n ≠ 0)
  | .float q => decide (q ≠ 0)
  | .str s => !s.data.isEmpty
  | .arr xs => !xs.isEmpty
  | .obj kvs => !kvs.isEmpty
  | .datetime _ _ _ _ _ _ _ => true

/-- Python `a or b`: `a` when truthy, otherwise `b`. -/
def pyOr (a b : PyVal) : PyVal :=
  if pyTruthy a then a else b

/-- Python `str(v)`.  Strings, ints, bools and `None` are rendered as
CPython renders them; the renderings of floats, lists, dicts and
datetimes are abstracted by fixed placeholders (no claim depends on
them). -/
def pyStr : PyVal → String
  | .null => "None"
  | .bool true => "True"
  | .bool false => "False"
  | .int n => toString n
  | .float q => toString q
  | .str s => s
  | .arr _ => "<list>"
  | .obj _ => "<dict>"
  | .datetime _ _ _ _ _ _ _ => "<datetime>"

/-- Python dict assignment `m[k] = v`: replaces the value of an existing
key in place, otherwise appends the new key (insertion order kept). -/
def dictSet {α : Type} : List (String × α) → String → α → List (String × α)
  | [], k, v => [(k, v)]
  | (k', v') :: rest, k, v =>
      if k' = k then (k', v) :: rest else (k', v') :: dictSet rest k v

/-- Helper of `pick` from `api.py`: first value among `keys` that is
present in the dict and is not `None`. -/
def pickKeys (kvs : Dict) : List String → PyVal
  | [] => .null
  | k :: rest =>
      match dlookup k kvs with
      | some v => if v.isNull then pickKeys kvs rest else v
      | none => pickKeys kvs rest

/-- `pick(d, *keys)` from `api.py` (non-dicts give `None`). -/
def pick (d : PyVal) (keys : List String) : PyVal :=
  match d with
  | .obj kvs => pickKeys kvs keys
  | _ => .null

/-- Characters stripped by Python `str.strip()` (ASCII whitespace). -/
def isPySpace (c : Char) : Bool :=
  c = ' ' ∨ c = '\t' ∨ c = '\n' ∨ c = '\r' ∨ c = '\x0b' ∨ c = '\x0c'

/-- Python `s.strip()`: drop leading and trailing whitespace. -/
def pyStrip (s : String) : String :=
  ⟨((s.data.dropWhile isPySpace).reverse.dropWhile isPySpace).reverse⟩

/-- Decimal digit test used by the numeric-string parsers. -/
def isDig (c : Char) : Bool :=
  '0' ≤ c ∧ c ≤ '9'

/-- Value of a list of decimal digits. -/
def digitsToNat (cs : List Char) : ℕ :=
  cs.foldl (fun a c => 10 * a + (c.toNat - 48)) 0

/-- Split a char list at the longest digit prefix. -/
def spanDigits (cs : List Char) : List Char × List Char :=
  (cs.takeWhile isDig, cs.dropWhile isDig)

/-- Mantissa of a Python float literal: `digits`, `digits.digits`,
`digits.` or `.digits` (at least one digit overall). -/
def parseMantissa (cs : List Char) : Option (ℚ × List Char) :=
  let (ip, r1) := spanDigits cs
  match r1 with
  | '.' :: r2 =>
      let (fp, r3) := spanDigits r2
      if ip.isEmpty && fp.isEmpty then none
      else some ((digitsToNat ip : ℚ) + (digitsToNat fp : ℚ) / (10 ^ fp.length), r3)
  | _ => if ip.isEmpty then none else some ((digitsToNat ip : ℚ), r1)

/-- Optional exponent suffix `e±digits` that must consume the rest. -/
def parseExpPart (cs : List Char) : Option ℤ :=
  match cs with
  | [] => some 0
  | c :: rest =>
      if c = 'e' ∨ c = 'E' then
        let (sgn, r1) : ℤ × List Char :=
          match rest with
          | '+' :: r => (1, r)
          | '-' :: r => (-1, r)
          | r => (1, r)
        let (ds, r2) := spanDigits r1
        if ds.isEmpty || !r2.isEmpty then none else some (sgn * digitsToNat ds)
      else none

/-- Model of Python `float(s)` on an already-stripped string: optional
sign, decimal mantissa, optional exponent.  (`inf`, `nan` and digit
underscores are outside the modelled subset; no claim touches them.) -/
def pyFloatOfString (s : String) : Option ℚ :=
  let (sgn, cs) : ℚ × List Char :=
    match s.data with
    | '+' :: r => (1, r)
    | '-' :: r => (-1, r)
    | r => (1, r)
  match parseMantissa cs with
  | none => none
  | some (m, rest) =>
      match parseExpPart rest with
      | none => none
      | some e =>
          if 0 ≤ e then some (sgn * m * 10 ^ e.toNat)
          else some (sgn * m / 10 ^ (-e).toNat)

/-- `as_float` from `api.py`: `None → None`; ints and floats (and bools,
which are ints in Python) → the float value; strings →
`float(s.strip())`, `None` on parse failure; everything else → `None`.
Total by construction: the Python function never raises. -/
def as_float : PyVal → Option ℚ
  | .null => none
  | .bool b => some (if b then 1 else 0)
  | .int n => some (n : ℚ)
  | .float q => some q
  | .str s => pyFloatOfString (pyStrip s)
  | _ => none

/-- Python `round(q)` with one argument: round half to even. -/
def pyRound (q : ℚ) : ℤ :=
  let f := ⌊q⌋
  let r := q - (f : ℚ)
  if r < 1 / 2 then f
  else if 1 / 2 < r then f + 1
  else if f % 2 = 0 then f else f + 1

/-!
## HTTP layer and `api.py` top level

`Params` models the optional query-parameter dict passed to
`YourApiClient._get` (all parameter values in the source are ints).
-/

/-- Query parameters of a `_get` call (`None` or a dict of ints). -/
abbrev Params := Option (List (String × Int))

/-- Oracle for `YourApiClient._get`: maps a path and parameters to the
parsed JSON, or to `Except.error ()` when the request raises. -/
abbrev Get := String → Params → Except Unit PyVal

/-- `normalize_list_response` from `fetch_readings`: a list keeps its
dict elements; a dict is probed at `items`, `data`, `results`,
`batches` in order, returning the dict elements of the first value
that is a list; anything else gives `[]`. -/
def normKeys (kvs : Dict) : List String → List Dict
  | [] => []
  | k :: rest =>
      match dlookup k kvs with
      | some (.arr v) => v.filterMap (fun x => match x with | .obj o => some o | _ => none)
      | _ => normKeys kvs rest

/-- Dispatch of `normalize_list_response` on the container shape. -/
def normalize_list_response (data : PyVal) : List Dict :=
  match data with
  | .arr xs => xs.filterMap (fun x => match x with | .obj o => some o | _ => none)
  | .obj kvs => normKeys kvs ["items", "data", "results", "batches"]
  | _ => []

/-- One list item of `collect_device_ids`: plain identifiers (strings,
ints, bools — `bool` is an `int` in Python) are kept via `str()`,
identifier-bearing dicts contribute their first truthy field among
`id`, `deviceId`, `proId`, `_id`. -/
def idFromListItem : PyVal → List String
  | .str s => [s]
  | .int n => [toString n]
  | .bool b => [pyStr (.bool b)]
  | .obj kvs =>
      let v := pyOr (pyGet kvs "id") (pyOr (pyGet kvs "deviceId")
        (pyOr (pyGet kvs "proId") (pyGet kvs "_id")))
      if pyTruthy v then [pyStr v] else []
  | _ => []

/-- The list branch of `collect_device_ids`. -/
def idsFromList (xs : List PyVal) : List String :=
  xs.foldr (fun item acc => idFromListItem item ++ acc) []

/-- `collect_device_ids` from `fetch_readings`: a dict contributes its
truthy `proId`/`deviceId`/`id`/`_id` fields and recurses into list
values under `items`/`data`/`devices`; a list contributes per item; a
plain string or int contributes itself. -/
def collect_device_ids : PyVal → List String
  | .obj kvs =>
      (["proId", "deviceId", "id", "_id"].foldr (fun k acc =>
        (let v := pyGet kvs k; if pyTruthy v then [pyStr v] else []) ++ acc) [])
      ++ (["items", "data", "devices"].foldr (fun k acc =>
        (match dlookup k kvs with
         | some (.arr v) => idsFromList v
         | _ => []) ++ acc) [])
  | .arr xs => idsFromList xs
  | .str s => [s]
  | .int n => [toString n]
  | .bool b => [pyStr (.bool b)]
  | _ => []

/-- `batch_label` from `fetch_readings`: `name or batchCode or id or
_id` (Python `or`, so the last value is returned even when falsy). -/
def batch_label (b : Dict) : PyVal :=
  pyOr (pyGet b "name") (pyOr (pyGet b "batchCode") (pyOr (pyGet b "id") (pyGet b "_id")))

/-- `batch_rank` from `fetch_readings`: higher is better, compared as a
Python tuple.  `enabled` counts unless the field is identically
`False`; `archived` counts against only when identically `True`;
`not ended` requires the `end` field to be `None` (or absent);
recency is `str(updatedAt or start or createdAt or "")`. -/
def batch_rank (b : Dict) : ℕ × ℕ × ℕ × String :=
  (if (pyGet b "enabled").isFalseLit then 0 else 1,
   if (pyGet b "archived").isTrueLit then 0 else 1,
   if (pyGet b "end").isNull then 1 else 0,
   pyStr (pyOr (pyGet b "updatedAt") (pyOr (pyGet b "start")
     (pyOr (pyGet b "createdAt") (.str "")))))

/-- Lexicographic strict comparison of char lists by code point
(CPython string comparison). -/
def charsLt : List Char → List Char → Bool
  | [], [] => false
  | [], _ :: _ => true
  | _ :: _, [] => false
  | a :: as, b :: bs => decide (a < b) || (decide (a = b) && charsLt as bs)

/-- Python `<` on strings. -/
def strLt (a b : String) : Bool :=
  charsLt a.data b.data

/-- Python `<` on the 4-tuples produced by `batch_rank`. -/
def rankLt (x y : ℕ × ℕ × ℕ × String) : Bool :=
  decide (x.1 < y.1) || (decide (x.1 = y.1) &&
    (decide (x.2.1 < y.2.1) || (decide (x.2.1 = y.2.1) &&
      (decide (x.2.2.1 < y.2.2.1) || (decide (x.2.2.1 = y.2.2.1) &&
        strLt x.2.2.2 y.2.2.2)))))

/-- One list item of `extract_device_ids_from_batch_devices`: same as
for `collect_device_ids` lists, but the dict fields are probed in the
order `id`, `_id`, `deviceId`, `proId`. -/
def batchDevItem : PyVal → List String
  | .str s => [s]
  | .int n => [toString n]
  | .bool b => [pyStr (.bool b)]
  | .obj kvs =>
      let v := pyOr (pyGet kvs "id") (pyOr (pyGet kvs "_id")
        (pyOr (pyGet kvs "deviceId") (pyGet kvs "proId")))
      if pyTruthy v then [pyStr v] else []
  | _ => []

/-- `extract_device_ids_from_batch_devices` from `fetch_readings`:
non-lists give `[]`. -/
def extract_device_ids_from_batch_devices : PyVal → List String
  | .arr xs => xs.foldr (fun item acc => batchDevItem item ++ acc) []
  | _ => []

/-- Device ids named by a batch (its `devices` field). -/
def batchIds (b : Dict) : List String :=
  extract_device_ids_from_batch_devices (pyGet b "devices")

/-- One step of the best-batch selection for one device id: insert the
batch when the id is new, replace when the existing entry is falsy
(empty dict) or strictly outranked (Python `>` on the rank tuples). -/
def innerUpd (c : Dict) (m : List (String × Dict)) (did : String) : List (String × Dict) :=
  match dlookup did m with
  | none => dictSet m did c
  | some existing =>
      if existing.isEmpty || rankLt (batch_rank existing) (batch_rank c)
      then dictSet m did c else m

/-- Processing of one batch in the `device_id_to_best_batch` loop:
batches naming no device are skipped. -/
def updateBest (m : List (String × Dict)) (c : Dict) : List (String × Dict) :=
  let ds := batchIds c
  if ds.isEmpty then m else ds.foldl (innerUpd c) m

/-- The `device_id_to_best_batch` mapping built by `fetch_readings`. -/
def buildBestBatchMap (batches : List Dict) : List (String × Dict) :=
  batches.foldl updateBest []

/-- The display name of a fermenter:
`name or title or id or "Fermenter"`. -/
def fermenterName (fer : Dict) : PyVal :=
  pyOr (pyGet fer "name") (pyOr (pyGet fer "title")
    (pyOr (pyGet fer "id") (.str "Fermenter")))

/-- Processing of one fermenter in the `device_to_fermenter_name` loop:
its `devices` list, its `device` field, and a synthetic
`{"proId": ...}` dict (when `proId` is truthy) are scanned in order,
and every collected id is mapped to `str(fer_name)`. -/
def fermenterAssign (m : List (String × String)) (fer : Dict) : List (String × String) :=
  let possible : List PyVal :=
    [pyGet fer "devices", pyGet fer "device",
     if pyTruthy (pyGet fer "proId") then .obj [("proId", pyGet fer "proId")] else .null]
  possible.foldl (fun m c =>
    (collect_device_ids c).foldl (fun m did => dictSet m did (pyStr (fermenterName fer))) m) m

/-- The `device_to_fermenter_name` mapping built by `fetch_readings`. -/
def buildFermenterMap (fermenters : List Dict) : List (String × String) :=
  fermenters.foldl fermenterAssign []

/-!
## `_get_latest_reading` (secondary per-device lookup)
-/

/-- The four candidate (endpoint, params) pairs tried by
`_get_latest_reading`, in source order. -/
def readingCandidates (devId : String) : List (String × Params) :=
  [("/devices/" ++ devId ++ "/readings", some [("limit", 1)]),
   ("/devices/" ++ devId ++ "/readings", some [("take", 1)]),
   ("/devices/" ++ devId ++ "/readings", some [("pageSize", 1), ("page", 1)]),
   ("/devices/" ++ devId ++ "/measurements", some [("limit", 1)])]

/-- The nested-collection probe inside `_get_latest_reading`: first key
among the given ones whose value is a nonempty list, yielding that
list's head. -/
def firstItemOfKeys (kvs : Dict) : List String → Option PyVal
  | [] => none
  | k :: rest =>
      match dlookup k kvs with
      | some (.arr (x :: _)) => some x
      | _ => firstItemOfKeys kvs rest

/-- The known temperature/gravity keys probed for presence by
`_get_latest_reading`. -/
def readingSignatureKeys : List String :=
  ["temperature", "temp", "density", "sg", "specificGravity", "gravity"]

/-- The body run by `_get_latest_reading` on the response of the first
candidate that does not raise: a list yields its head (or `None` when
empty); a dict yields the head of its first nonempty nested list under
`items`/`readings`/`data`/`results`, or itself when it carries a known
temperature/gravity key; anything else yields `None`. -/
def extractReading : PyVal → PyVal
  | .arr [] => .null
  | .arr (x :: _) => x
  | .obj kvs =>
      match firstItemOfKeys kvs ["items", "readings", "data", "results"] with
      | some x => x
      | none =>
          if readingSignatureKeys.any (fun k => (dlookup k kvs).isSome)
          then .obj kvs else .null
  | _ => .null

/-- The candidate loop of `_get_latest_reading`: candidates that raise
are skipped; the first one that succeeds determines the result via
`extractReading` (the loop body ends in an unconditional `return`). -/
def getLatestCore (g : Get) : List (String × Params) → PyVal
  | [] => .null
  | (p, ps) :: rest =>
      match g p ps with
      | .error _ => getLatestCore g rest
      | .ok data => extractReading data

/-- `YourApiClient._get_latest_reading`. -/
def getLatestReading (g : Get) (devId : String) : PyVal :=
  getLatestCore g (readingCandidates devId)

/-!
## The per-device loop of `fetch_readings`
-/

/-- Python `v.get(k)` on an arbitrary value: raises `AttributeError`
(modelled as `Except.error ()`) when `v` is not a dict. -/
def pyDotGet (v : PyVal) (k : String) : Except Unit PyVal :=
  match v with
  | .obj kvs => .ok (pyGet kvs k)
  | _ => .error ()

/-- Candidate field names for the temperature of a reading. -/
def tempKeys : List String :=
  ["temperature", "temp", "tempC", "temperatureC", "beerTemp", "wortTemp"]

/-- Candidate field names for the gravity of a reading. -/
def sgKeys : List String :=
  ["density", "sg", "specificGravity", "gravity", "SG"]

/-- Candidate field names for the timestamp of a reading. -/
def timeKeys : List String :=
  ["time", "timestamp", "createdAt", "date"]

/-- The `device_to_fermenter_name` and `device_id_to_best_batch`
mappings consumed by the per-device loop. -/
structure Maps where
  d2f : List (String × String)
  d2b : List (String × Dict)

/-- The secondary-lookup block of the device loop: when
`_get_latest_reading` returns a dict, unwrap one nesting level and fill
in the still-missing temperature/gravity (with one level of
Celsius/Fahrenheit or specificGravity/plato unwrapping) and the
still-falsy timestamp. -/
def secondaryFill (g : Get) (devId : String) (temp sg : Option ℚ) (time : PyVal) :
    Option ℚ × Option ℚ × PyVal :=
  match getLatestReading g devId with
  | .obj kvs =>
      let reading : PyVal :=
        match pick (.obj kvs) ["reading", "data", "values"] with
        | .obj kvs2 => .obj kvs2
        | _ => .obj kvs
      let temp' :=
        match temp with
        | some t => some t
        | none =>
            match pick reading tempKeys with
            | .obj sub => as_float (pick (.obj sub) ["celsius", "fahrenheit"])
            | v => as_float v
      let sg' :=
        match sg with
        | some s => some s
        | none =>
            match pick reading sgKeys with
            | .obj sub => as_float (pick (.obj sub) ["specificGravity", "plato"])
            | v => as_float v
      (temp', sg', pyOr time (pick reading timeKeys))
  | _ => (temp, sg, time)

/-- The nested-object unwrapping step of the device loop
(`temperature: {"celsius": ...}` and `density: {"specificGravity":
...}`): only evaluated when the value is still missing, and then
`latest.get(...)` raises when `latest` is not a dict. -/
def nestedUnwrap (latest : PyVal) (key : String) (subkeys : List String)
    (cur : Option ℚ) : Except Unit (Option ℚ) :=
  match cur with
  | some c => .ok (some c)
  | none =>
      match latest with
      | .obj kvs =>
          .ok (match pyGet kvs key with
               | .obj sub => as_float (pick (.obj sub) subkeys)
               | _ => none)
      | _ => .error ()

/-- The `latest` dict probed by the device loop: the embedded
`latestReading` (`{}` when falsy), unwrapped one level through
`reading`/`data`/`values` when that yields a dict. -/
def latestOf (kvs : Dict) : PyVal :=
  let latest0 := pyOr (pyGet kvs "latestReading") (.obj [])
  match pick latest0 ["reading", "data", "values"] with
  | .obj k2 => .obj k2
  | _ => latest0

/-- Resolution of temperature, gravity and timestamp for one device
dict (continued below). -/
def resolveReading (g : Get) (kvs : Dict) (devId : String) :
    Except Unit (Option ℚ × Option ℚ × PyVal) :=
  let latest : PyVal := latestOf kvs
  let temp0 := as_float (pick latest tempKeys)
  let sg0 := as_float (pick latest sgKeys)
  let time0 := pyOr (pick latest timeKeys) (pick (.obj kvs) ["latestReadingTime"])
  match nestedUnwrap latest "temperature" ["celsius", "fahrenheit"] temp0 with
  | .error e => .error e
  | .ok temp1 =>
      match nestedUnwrap latest "density" ["specificGravity", "plato"] sg0 with
      | .error e => .error e
      | .ok sg1 =>
          if temp1.isNone || sg1.isNone
          then .ok (secondaryFill g devId temp1 sg1 time0)
          else .ok (temp1, sg1, time0)

/-- A resolved optional float as stored in the output record. -/
def optFloat : Option ℚ → PyVal
  | none => .null
  | some q => .float q

/-- The output record assembled for one device. -/
def buildRecord (maps : Maps) (kvs : Dict) (devId : String)
    (t s : Option ℚ) (tm : PyVal) : PyVal :=
  .obj [
    ("name", pyOr (pyGet kvs "name") (.str ("Plaato " ++ devId))),
    ("batteryLevel", pick (.obj kvs) ["batteryLevel", "battery", "battery_percent"]),
    ("wifiStrength", pick (.obj kvs) ["wifiStrength", "rssi", "signal"]),
    ("temperature", optFloat t),
    ("density", optFloat s),
    ("time", tm),
    ("fermenter", match dlookup devId maps.d2f with
                  | some n => .str n
                  | none => .null),
    ("batch", match dlookup devId maps.d2b with
              | some b => batch_label b
              | none => .null)]

/-- The body of `for dev in devices or []`: a non-dict element raises
(`dev.get`), a dict with a falsy `id` is skipped, and otherwise the
record is computed and stored under `str(id)`. -/
def processDevice (g : Get) (maps : Maps) (out : List (String × PyVal)) (dev : PyVal) :
    Except Unit (List (String × PyVal)) :=
  match dev with
  | .obj kvs =>
      let rawId := pyGet kvs "id"
      if pyTruthy rawId then
        let devId := pyStr rawId
        match resolveReading g kvs devId with
        | .error e => .error e
        | .ok (t, s, tm) => .ok (dictSet out devId (buildRecord maps kvs devId t s tm))
      else .ok out
  | _ => .error ()

/-!
## `fetch_readings` top level
-/

/-- Python iteration `for x in v`: lists yield their elements, strings
their characters, dicts their keys; other values raise `TypeError`. -/
def pyIter : PyVal → Except Unit (List PyVal)
  | .arr xs => .ok xs
  | .str s => .ok (s.data.map (fun c => .str (String.mk [c])))
  | .obj kvs => .ok (kvs.map (fun p => .str p.1))
  | _ => .error ()

/-- The fermenter fetch: a raised `/fermenters` request degrades to the
empty collection. -/
def fetchFermenters (g : Get) : List Dict :=
  match g "/fermenters" none with
  | .error _ => []
  | .ok d => normalize_list_response d

/-- The parameter variants tried for `/batches`, in source order. -/
def batchParamVariants : List Params :=
  [none, some [("limit", 200)], some [("take", 200)],
   some [("pageSize", 200), ("page", 1)]]

/-- The `/batches` retry loop: raised requests are skipped, a response
normalizing to a nonempty list stops the loop, and the last normalized
value (possibly `[]`) is kept otherwise. -/
def fetchBatchesLoop (g : Get) : List Params → List Dict → List Dict
  | [], acc => acc
  | p :: rest, acc =>
      match g "/batches" p with
      | .error _ => fetchBatchesLoop g rest acc
      | .ok raw =>
          let b := normalize_list_response raw
          if b.isEmpty then fetchBatchesLoop g rest b else b

/-- The batch fetch of `fetch_readings`. -/
def fetchBatches (g : Get) : List Dict :=
  fetchBatchesLoop g batchParamVariants []

/-- `YourApiClient.fetch_readings`: fetch `/devices` (fatal on error),
fetch fermenters and batches best-effort, build both associations, and
process each device into the output mapping. -/
def fetch_readings (g : Get) : Except Unit (List (String × PyVal)) :=
  match g "/devices" none with
  | .error e => .error e
  | .ok devices =>
      let maps : Maps :=
        ⟨buildFermenterMap (fetchFermenters g), buildBestBatchMap (fetchBatches g)⟩
      match pyIter (if pyTruthy devices then devices else .arr []) with
      | .error e => .error e
      | .ok devList => devList.foldlM (processDevice g maps) []

/-!
## `sensor.py`: per-entity value derivation

Only the branches of `PlaatoReadingSensor.native_value` that the claims
are about are embedded: the derived gravity-points reading and the
timestamp-typed reading.
-/

/-- Exactly `n` decimal digits from the front of a char list. -/
def parseFixedDigits (n : ℕ) (cs : List Char) : Option (ℕ × List Char) :=
  let ds := cs.take n
  if ds.length = n && ds.all isDig then some (digitsToNat ds, cs.drop n) else none

/-- Days per month for the datetime range check (Gregorian rules). -/
def daysInMonth (year month : ℕ) : ℕ :=
  if month = 2 then
    if year % 4 = 0 && (year % 100 ≠ 0 || year % 400 = 0) then 29 else 28
  else if month = 4 || month = 6 || month = 9 || month = 11 then 30
  else 31

/-- UTC-offset suffix `±HH:MM` of an ISO string; the empty remainder
yields a naive datetime (`none`). -/
def parseOffset : List Char → Option (Option Int)
  | [] => some none
  | c :: rest =>
      if c = '+' ∨ c = '-' then
        match parseFixedDigits 2 rest with
        | some (hh, ':' :: r2) =>
            match parseFixedDigits 2 r2 with
            | some (mm, []) =>
                if hh < 24 && mm < 60 then
                  some (some ((if c = '-' then -1 else 1) * ((hh : ℤ) * 60 + mm)))
                else none
            | _ => none
        | _ => none
      else none

/-- Time-of-day and offset part `HH:MM[:SS][±HH:MM]` of an ISO string. -/
def parseTimePart (cs : List Char) : Option (ℕ × ℕ × ℕ × Option Int) :=
  match parseFixedDigits 2 cs with
  | some (hh, ':' :: r1) =>
      match parseFixedDigits 2 r1 with
      | some (mm, r2) =>
          if hh < 24 && mm < 60 then
            match r2 with
            | ':' :: r3 =>
                match parseFixedDigits 2 r3 with
                | some (ss, r4) =>
                    if ss < 60 then
                      match parseOffset r4 with
                      | some tz => some (hh, mm, ss, tz)
                      | none => none
                    else none
                | none => none
            | _ =>
                match parseOffset r2 with
                | some tz => some (hh, mm, 0, tz)
                | none => none
          else none
      | none => none
  | _ => none

/-- Model of `datetime.fromisoformat`: `YYYY-MM-DD`, optionally
followed by `T` or a space and `HH:MM[:SS][±HH:MM]`, with calendar and
range validation.  (Fractional seconds and other separators are
outside the modelled subset; no claim touches them.)  The result is a
`PyVal.datetime`; its offset field is `some` minutes exactly when the
string carries an offset (an aware instant). -/
def fromisoformat (s : String) : Option PyVal :=
  match parseFixedDigits 4 s.data with
  | some (y, '-' :: r1) =>
      match parseFixedDigits 2 r1 with
      | some (mo, '-' :: r2) =>
          match parseFixedDigits 2 r2 with
          | some (d, r3) =>
              if 1 ≤ mo && mo ≤ 12 && 1 ≤ d && d ≤ daysInMonth y mo then
                match r3 with
                | [] => some (.datetime y mo d 0 0 0 none)
                | sep :: r4 =>
                    if sep = 'T' ∨ sep = ' ' then
                      match parseTimePart r4 with
                      | some (hh, mm, ss, tz) => some (.datetime y mo d hh mm ss tz)
                      | none => none
                    else none
              else none
          | none => none
      | _ => none
  | _ => none

/-- Python `s.replace("Z", "+00:00")` (every occurrence). -/
def replaceZ (s : String) : String :=
  ⟨s.data.foldr (fun c acc => (if c = 'Z' then ['+', '0', '0', ':', '0', '0'] else [c]) ++ acc) []⟩

/-- The timestamp branch of `PlaatoReadingSensor.native_value` (device
class TIMESTAMP, i.e. the `time` reading): datetimes and `None` pass
through; strings are parsed after replacing `"Z"` with `"+00:00"`, and
returned unchanged when parsing raises; any other value falls through
to the final `return val`. -/
def nativeValueTime (val : PyVal) : PyVal :=
  match val with
  | .datetime y mo d h mi s tz => .datetime y mo d h mi s tz
  | .null => .null
  | .str s =>
      match fromisoformat (replaceZ s) with
      | some dt => dt
      | none => .str s
  | v => v

/-- The `gravity_points` branch of `PlaatoReadingSensor.native_value`:
the payload's `density` is read; a string is parsed with
`float(sg.strip())` (`None` on failure); a numeric value (including a
bool, which is an int in Python) yields
`round((float(sg) - 1.0) * 1000)`; anything else yields `None`. -/
def gravityPointsValue (payload : Dict) : PyVal :=
  match pyGet payload "density" with
  | .str s =>
      match pyFloatOfString (pyStrip s) with
      | none => .null
      | some q => .int (pyRound ((q - 1) * 1000))
  | .int n => .int (pyRound (((n : ℚ) - 1) * 1000))
  | .float q => .int (pyRound ((q - 1) * 1000))
  | .bool b => .int (pyRound (((if b then 1 else 0 : ℚ) - 1) * 1000))
  | _ => .null

/-!
## Association-list lemmas
-/

theorem dlookup_dictSet_self {α : Type} (m : List (String × α)) (k : String) (v : α) :
    dlookup k (dictSet m k v) = some v := by
  induction m with
  | nil => simp [dictSet, dlookup]
  | cons p rest ih =>
      obtain ⟨k', v'⟩ := p
      by_cases h : k' = k
      · simp [dictSet, dlookup, h]
      · simp [dictSet, dlookup, h, ih]

theorem dlookup_dictSet_ne {α : Type} (m : List (String × α)) (k k' : String) (v : α)
    (h : k' ≠ k) : dlookup k' (dictSet m k v) = dlookup k' m := by
  have hk : ¬ k = k' := fun hh => h hh.symm
  induction m with
  | nil => simp [dictSet, dlookup, hk]
  | cons p rest ih =>
      obtain ⟨k0, v0⟩ := p
      by_cases h0 : k0 = k
      · subst h0
        simp [dictSet, dlookup, hk]
      · simp [dictSet, dlookup, h0, ih]

theorem mem_dictSet {α : Type} (m : List (String × α)) (k : String) (v : α)
    (p : String × α) (hp : p ∈ dictSet m k v) : p ∈ m ∨ p = (k, v) := by
  induction m with
  | nil =>
      simp only [dictSet, List.mem_singleton] at hp
      exact Or.inr hp
  | cons q rest ih =>
      obtain ⟨k0, v0⟩ := q
      by_cases h0 : k0 = k
      · subst h0
        have hd : dictSet ((k0, v0) :: rest) k0 v = (k0, v) :: rest := by
          simp [dictSet]
        rw [hd] at hp
        rcases List.mem_cons.mp hp with h1 | h1
        · exact Or.inr h1
        · exact Or.inl (List.mem_cons_of_mem _ h1)
      · have hd : dictSet ((k0, v0) :: rest) k v = (k0, v0) :: dictSet rest k v := by
          simp [dictSet, h0]
        rw [hd] at hp
        rcases List.mem_cons.mp hp with h1 | h1
        · exact Or.inl (h1 ▸ List.mem_cons_self _ _)
        · rcases ih h1 with h2 | h2
          · exact Or.inl (List.mem_cons_of_mem _ h2)
          · exact Or.inr h2

theorem isSome_dlookup_dictSet {α : Type} (m : List (String × α)) (k k' : String) (v : α)
    (h : (dlookup k' m).isSome) : (dlookup k' (dictSet m k v)).isSome := by
  by_cases hk : k' = k
  · subst hk; simp [dlookup_dictSet_self]
  · rwa [dlookup_dictSet_ne m k k' v hk]

/-!
## Strict-order facts about the batch rank comparison
-/

theorem charsLt_irrefl : ∀ l : List Char, charsLt l l = false
  | [] => rfl
  | c :: cs => by simp [charsLt, charsLt_irrefl cs]

theorem charsLt_trans : ∀ a b c : List Char,
    charsLt a b = true → charsLt b c = true → charsLt a c = true := by
  intro a
  induction a with
  | nil =>
      intro b c hab hbc
      cases b with
      | nil => simp [charsLt] at hab
      | cons y ys =>
          cases c with
          | nil => simp [charsLt] at hbc
          | cons z zs => simp [charsLt]
  | cons x xs ih =>
      intro b c hab hbc
      cases b with
      | nil => simp [charsLt] at hab
      | cons y ys =>
          cases c with
          | nil => simp [charsLt] at hbc
          | cons z zs =>
              simp only [charsLt, Bool.or_eq_true, Bool.and_eq_true,
                decide_eq_true_eq] at hab hbc ⊢
              rcases hab with h1 | ⟨he1, h1⟩
              · rcases hbc with h2 | ⟨he2, h2⟩
                · exact Or.inl (lt_trans h1 h2)
                · exact Or.inl (he2 ▸ h1)
              · rcases hbc with h2 | ⟨he2, h2⟩
                · exact Or.inl (he1.symm ▸ h2)
                · exact Or.inr ⟨he1.trans he2, ih ys zs h1 h2⟩

theorem strLt_irrefl (s : String) : strLt s s = false :=
  charsLt_irrefl s.data

theorem strLt_trans {a b c : String} (h1 : strLt a b = true) (h2 : strLt b c = true) :
    strLt a c = true :=
  charsLt_trans a.data b.data c.data h1 h2

theorem rankLt_irrefl (x : ℕ × ℕ × ℕ × String) : rankLt x x = false := by
  obtain ⟨a1, a2, a3, a4⟩ := x
  simp [rankLt, strLt_irrefl]

theorem rankLt_trans {x y z : ℕ × ℕ × ℕ × String}
    (h1 : rankLt x y = true) (h2 : rankLt y z = true) : rankLt x z = true := by
  obtain ⟨a1, a2, a3, a4⟩ := x
  obtain ⟨b1, b2, b3, b4⟩ := y
  obtain ⟨c1, c2, c3, c4⟩ := z
  simp only [rankLt, Bool.or_eq_true, Bool.and_eq_true, decide_eq_true_eq] at h1 h2 ⊢
  rcases h1 with h1 | ⟨e1, h1⟩
  · rcases h2 with h2 | ⟨e2, h2⟩
    · exact Or.inl (lt_trans h1 h2)
    · exact Or.inl (e2 ▸ h1)
  · rcases h2 with h2 | ⟨e2, h2⟩
    · exact Or.inl (e1.symm ▸ h2)
    · refine Or.inr ⟨e1.trans e2, ?_⟩
      rcases h1 with h1 | ⟨f1, h1⟩
      · rcases h2 with h2 | ⟨f2, h2⟩
        · exact Or.inl (lt_trans h1 h2)
        · exact Or.inl (f2 ▸ h1)
      · rcases h2 with h2 | ⟨f2, h2⟩
        · exact Or.inl (f1.symm ▸ h2)
        · refine Or.inr ⟨f1.trans f2, ?_⟩
          rcases h1 with h1 | ⟨g1, h1⟩
          · rcases h2 with h2 | ⟨g2, h2⟩
            · exact Or.inl (lt_trans h1 h2)
            · exact Or.inl (g2 ▸ h1)
          · rcases h2 with h2 | ⟨g2, h2⟩
            · exact Or.inl (g1.symm ▸ h2)
            · exact Or.inr ⟨g1.trans g2, strLt_trans h1 h2⟩

/-!
## Invariants of the best-batch selection
-/

/-- Device ids named by the empty dict: none. -/
theorem batchIds_nil : batchIds ([] : Dict) = [] := rfl

/-- Invariant of the best-batch fold with respect to the processed
batches `bs`: every mapped batch comes from `bs`, names its device id,
and is outranked by no batch of `bs` naming that id; conversely every
id named by a batch of `bs` is mapped. -/
def bestInv (bs : List Dict) (m : List (String × Dict)) : Prop :=
  (∀ did e, dlookup did m = some e →
     e ∈ bs ∧ did ∈ batchIds e ∧
       ∀ b' ∈ bs, did ∈ batchIds b' → rankLt (batch_rank e) (batch_rank b') = false)
  ∧ ∀ b' ∈ bs, ∀ did ∈ batchIds b', (dlookup did m).isSome

/-- Intermediate invariant while the ids of one batch `c` are folded:
`rest` is the part of `c`'s id list not yet processed. -/
def midInv (c : Dict) (bs : List Dict) (rest : List String)
    (m : List (String × Dict)) : Prop :=
  (∀ did e, dlookup did m = some e →
     did ∈ batchIds e ∧
     ((e ∈ bs ∧ ∀ b' ∈ bs, did ∈ batchIds b' → rankLt (batch_rank e) (batch_rank b') = false)
       ∨ (e = c ∧ did ∈ batchIds c ∧
          ∀ b' ∈ bs, did ∈ batchIds b' → rankLt (batch_rank c) (batch_rank b') = false))
     ∧ (did ∈ batchIds c → did ∉ rest → rankLt (batch_rank e) (batch_rank c) = false))
  ∧ (∀ b' ∈ bs, ∀ did ∈ batchIds b', (dlookup did m).isSome)
  ∧ (∀ did ∈ batchIds c, did ∉ rest → (dlookup did m).isSome)

theorem midInv_insert (c : Dict) (bs : List Dict) (did0 : String) (rest : List String)
    (m : List (String × Dict)) (hd0 : did0 ∈ batchIds c)
    (h : midInv c bs (did0 :: rest) m)
    (hmaxc : ∀ b' ∈ bs, did0 ∈ batchIds b' → rankLt (batch_rank c) (batch_rank b') = false) :
    midInv c bs rest (dictSet m did0 c) := by
  obtain ⟨hEnt, hConvB, hConvC⟩ := h
  refine ⟨?_, ?_, ?_⟩
  · intro did e hle
    by_cases hdd : did = did0
    · subst hdd
      rw [dlookup_dictSet_self] at hle
      have he : c = e := by injection hle
      subst he
      exact ⟨hd0, Or.inr ⟨rfl, hd0, hmaxc⟩, fun _ _ => rankLt_irrefl _⟩
    · rw [dlookup_dictSet_ne m did0 did c hdd] at hle
      obtain ⟨h1, h2, h3⟩ := hEnt did e hle
      exact ⟨h1, h2, fun hc hrest => h3 hc (by simp [hdd, hrest])⟩
  · intro b' hb' did hdid
    exact isSome_dlookup_dictSet _ _ _ _ (hConvB b' hb' did hdid)
  · intro did hdc hrest
    by_cases hdd : did = did0
    · subst hdd; rw [dlookup_dictSet_self]; rfl
    · exact isSome_dlookup_dictSet _ _ _ _ (hConvC did hdc (by simp [hdd, hrest]))

theorem midInv_step (c : Dict) (bs : List Dict) (did0 : String) (rest : List String)
    (m : List (String × Dict)) (hd0 : did0 ∈ batchIds c)
    (h : midInv c bs (did0 :: rest) m) : midInv c bs rest (innerUpd c m did0) := by
  obtain ⟨hEnt, hConvB, hConvC⟩ := h
  cases hl : dlookup did0 m with
  | none =>
      have hmaxc : ∀ b' ∈ bs, did0 ∈ batchIds b' →
          rankLt (batch_rank c) (batch_rank b') = false := by
        intro b' hb' hdid
        have hs := hConvB b' hb' did0 hdid
        rw [hl] at hs
        simp at hs
      have hres := midInv_insert c bs did0 rest m hd0 ⟨hEnt, hConvB, hConvC⟩ hmaxc
      simpa [innerUpd, hl] using hres
  | some e =>
      obtain ⟨hin, hdisj, _⟩ := hEnt did0 e hl
      by_cases hcond : (e.isEmpty || rankLt (batch_rank e) (batch_rank c)) = true
      · have hrlt : rankLt (batch_rank e) (batch_rank c) = true := by
          rcases Bool.or_eq_true_iff.mp hcond with hE | hR
          · exfalso
            have hee : e = [] := by cases e <;> simp_all [List.isEmpty]
            rw [hee, batchIds_nil] at hin
            cases hin
          · exact hR
        have hmaxc : ∀ b' ∈ bs, did0 ∈ batchIds b' →
            rankLt (batch_rank c) (batch_rank b') = false := by
          rcases hdisj with ⟨heb, hmax⟩ | ⟨hec, _, hmaxc'⟩
          · intro b' hb' hdid
            cases hcb : rankLt (batch_rank c) (batch_rank b') with
            | false => rfl
            | true =>
                exfalso
                have h1 := rankLt_trans hrlt hcb
                have h2 := hmax b' hb' hdid
                rw [h1] at h2
                cases h2
          · exfalso
            rw [hec, rankLt_irrefl] at hrlt
            cases hrlt
        have hres := midInv_insert c bs did0 rest m hd0 ⟨hEnt, hConvB, hConvC⟩ hmaxc
        simpa [innerUpd, hl, hcond] using hres
      · have hcf := eq_false_of_ne_true hcond
        have hrl : rankLt (batch_rank e) (batch_rank c) = false := by
          rcases Bool.or_eq_false_iff.mp hcf with ⟨_, hr⟩
          exact hr
        have hsame : innerUpd c m did0 = m := by
          simp [innerUpd, hl, hcf]
        rw [hsame]
        refine ⟨?_, hConvB, ?_⟩
        · intro did e' hle
          obtain ⟨h1, h2, h3⟩ := hEnt did e' hle
          refine ⟨h1, h2, ?_⟩
          intro hc hrest
          by_cases hdd : did = did0
          · subst hdd
            rw [hl] at hle
            have he : e = e' := by injection hle
            subst he
            exact hrl
          · exact h3 hc (by simp [hdd, hrest])
        · intro did hdc hrest
          by_cases hdd : did = did0
          · subst hdd; rw [hl]; rfl
          · exact hConvC did hdc (by simp [hdd, hrest])

theorem midInv_fold (c : Dict) (bs : List Dict) :
    ∀ (ds : List String) (m : List (String × Dict)),
      (∀ d ∈ ds, d ∈ batchIds c) → midInv c bs ds m →
      midInv c bs [] (ds.foldl (innerUpd c) m)
  | [], _, _, h => h
  | d :: ds, m, hds, h =>
      midInv_fold c bs ds (innerUpd c m d)
        (fun x hx => hds x (List.mem_cons_of_mem _ hx))
        (midInv_step c bs d ds m (hds d (List.mem_cons_self _ _)) h)

theorem bestInv_updateBest (bs : List Dict) (m : List (String × Dict)) (c : Dict)
    (h : bestInv bs m) : bestInv (bs ++ [c]) (updateBest m c) := by
  obtain ⟨hEnt, hConv⟩ := h
  by_cases hds : (batchIds c).isEmpty = true
  · have hee : batchIds c = [] := by
      cases hbc : batchIds c with
      | nil => rfl
      | cons a l => rw [hbc] at hds; simp [List.isEmpty] at hds
    have hsame : updateBest m c = m := by simp [updateBest, hds]
    rw [hsame]
    refine ⟨?_, ?_⟩
    · intro did e hle
      obtain ⟨h1, h2, h3⟩ := hEnt did e hle
      refine ⟨List.mem_append_left _ h1, h2, ?_⟩
      intro b' hb' hdid
      rcases List.mem_append.mp hb' with hb | hb
      · exact h3 b' hb hdid
      · exfalso
        have hbc : b' = c := by simpa using hb
        rw [hbc, hee] at hdid
        cases hdid
    · intro b' hb' did hdid
      rcases List.mem_append.mp hb' with hb | hb
      · exact hConv b' hb did hdid
      · exfalso
        have hbc : b' = c := by simpa using hb
        rw [hbc, hee] at hdid
        cases hdid
  · have hinit : midInv c bs (batchIds c) m := by
      refine ⟨?_, hConv, ?_⟩
      · intro did e hle
        obtain ⟨h1, h2, h3⟩ := hEnt did e hle
        exact ⟨h2, Or.inl ⟨h1, h3⟩, fun hc hnc => absurd hc hnc⟩
      · intro did hdc hnc
        exact absurd hdc hnc
    have hmid := midInv_fold c bs (batchIds c) m (fun d hd => hd) hinit
    have hres : updateBest m c = (batchIds c).foldl (innerUpd c) m := by
      simp [updateBest, hds]
    rw [hres]
    obtain ⟨hEnt', hConvB', hConvC'⟩ := hmid
    refine ⟨?_, ?_⟩
    · intro did e hle
      obtain ⟨h1, h2, h3⟩ := hEnt' did e hle
      rcases h2 with ⟨heb, hmax⟩ | ⟨hec, hdc, hmaxc⟩
      · refine ⟨List.mem_append_left _ heb, h1, ?_⟩
        intro b' hb' hdid
        rcases List.mem_append.mp hb' with hb | hb
        · exact hmax b' hb hdid
        · have hbc : b' = c := by simpa using hb
          subst hbc
          exact h3 hdid (List.not_mem_nil did)
      · refine ⟨List.mem_append_right _ (by simp [hec]), h1, ?_⟩
        intro b' hb' hdid
        rcases List.mem_append.mp hb' with hb | hb
        · exact hec ▸ hmaxc b' hb hdid
        · have hbc : b' = c := by simpa using hb
          subst hbc
          rw [hec]
          exact rankLt_irrefl _
    · intro b' hb' did hdid
      rcases List.mem_append.mp hb' with hb | hb
      · exact hConvB' b' hb did hdid
      · have hbc : b' = c := by simpa using hb
        subst hbc
        exact hConvC' did hdid (List.not_mem_nil did)

theorem bestInv_build : ∀ (bs seen : List Dict) (m : List (String × Dict)),
    bestInv seen m → bestInv (seen ++ bs) (bs.foldl updateBest m)
  | [], seen, m, h => by simpa using h
  | c :: bs, seen, m, h => by
      have h2 := bestInv_build bs (seen ++ [c]) (updateBest m c)
        (bestInv_updateBest seen m c h)
      simpa using h2

theorem bestInv_buildBestBatchMap (batches : List Dict) :
    bestInv batches (buildBestBatchMap batches) := by
  have h0 : bestInv [] [] := by
    constructor
    · intro did e hle; cases hle
    · intro b' hb'; cases hb'
  simpa [buildBestBatchMap] using bestInv_build batches [] [] h0

/-!
## Shape of the output records
-/

/-- The exact field list of every record emitted by `fetch_readings`. -/
def recordKeys : List String :=
  ["name", "batteryLevel", "wifiStrength", "temperature", "density",
   "time", "fermenter", "batch"]

/-- A well-shaped output record: a dict with exactly the eight fields,
in order, whose `name` is truthy (hence non-null). -/
def RecordOK (v : PyVal) : Prop :=
  ∃ kvs : Dict, v = .obj kvs ∧ kvs.map Prod.fst = recordKeys ∧
    pyTruthy (pyGet kvs "name") = true

theorem pyTruthy_plaato_name (kvs : Dict) (devId : String) :
    pyTruthy (pyOr (pyGet kvs "name") (.str ("Plaato " ++ devId))) = true := by
  by_cases h : pyTruthy (pyGet kvs "name") = true
  · simp [pyOr, h]
  · have hf : pyTruthy (pyGet kvs "name") = false := eq_false_of_ne_true h
    simp only [pyOr, hf, Bool.false_eq_true, if_false]
    show (!("Plaato " ++ devId).data.isEmpty) = true
    rw [String.data_append]
    simp

theorem buildRecord_ok (maps : Maps) (kvs : Dict) (devId : String)
    (t s : Option ℚ) (tm : PyVal) : RecordOK (buildRecord maps kvs devId t s tm) := by
  refine ⟨_, rfl, rfl, ?_⟩
  simpa [pyGet, dlookup] using pyTruthy_plaato_name kvs devId

theorem processDevice_records (g : Get) (maps : Maps) (out mid : List (String × PyVal))
    (dev : PyVal) (hstep : processDevice g maps out dev = .ok mid)
    (hout : ∀ p ∈ out, RecordOK p.2) : ∀ p ∈ mid, RecordOK p.2 := by
  cases dev with
  | obj kvs =>
      by_cases hid : pyTruthy (pyGet kvs "id") = true
      · simp only [processDevice, hid, eq_self_iff_true, if_true, ite_true] at hstep
        cases hres : resolveReading g kvs (pyStr (pyGet kvs "id")) with
        | error e => rw [hres] at hstep; cases hstep
        | ok r =>
            obtain ⟨t, s, tm⟩ := r
            rw [hres] at hstep
            have hmid : mid = dictSet out (pyStr (pyGet kvs "id"))
                (buildRecord maps kvs (pyStr (pyGet kvs "id")) t s tm) := by
              injection hstep with h
              exact h.symm
            intro p hp
            rw [hmid] at hp
            rcases mem_dictSet _ _ _ _ hp with h | h
            · exact hout p h
            · rw [h]
              exact buildRecord_ok maps kvs (pyStr (pyGet kvs "id")) t s tm
      · have hf : pyTruthy (pyGet kvs "id") = false := eq_false_of_ne_true hid
        simp only [processDevice, hf, Bool.false_eq_true, if_false, ite_false] at hstep
        intro p hp
        have hmo : mid = out := by
          injection hstep with h
          exact h.symm
        exact hout p (hmo ▸ hp)
  | null => cases hstep
  | bool b => cases hstep
  | int n => cases hstep
  | float q => cases hstep
  | str s => cases hstep
  | arr xs => cases hstep
  | datetime y mo d h mi se tz => cases hstep

theorem foldlM_records (g : Get) (maps : Maps) :
    ∀ (devs : List PyVal) (out out' : List (String × PyVal)),
      List.foldlM (processDevice g maps) out devs = .ok out' →
      (∀ p ∈ out, RecordOK p.2) → ∀ p ∈ out', RecordOK p.2
  | [], out, out', hfold, hout => by
      simp only [List.foldlM_nil] at hfold
      injection hfold with h
      exact h ▸ hout
  | dev :: devs, out, out', hfold, hout => by
      rw [List.foldlM_cons] at hfold
      cases hstep : processDevice g maps out dev with
      | error e =>
          rw [hstep] at hfold
          simp [Bind.bind, Except.bind] at hfold
      | ok mid =>
          rw [hstep] at hfold
          simp only [Bind.bind, Except.bind] at hfold
          exact foldlM_records g maps devs mid out' hfold
            (processDevice_records g maps out mid dev hstep hout)

/-- Origin of an output key: some device dict in `devs` with a truthy
`id` whose `str()` is that key. -/
def KeyFromDevs (devs : List PyVal) (k : String) : Prop :=
  ∃ dev ∈ devs, ∃ kvs : Dict, dev = .obj kvs ∧
    pyTruthy (pyGet kvs "id") = true ∧ k = pyStr (pyGet kvs "id")

theorem processDevice_keys (g : Get) (maps : Maps) (out mid : List (String × PyVal))
    (dev : PyVal) (hstep : processDevice g maps out dev = .ok mid) :
    ∀ p ∈ mid, p ∈ out ∨ ∃ kvs : Dict, dev = .obj kvs ∧
      pyTruthy (pyGet kvs "id") = true ∧ p.1 = pyStr (pyGet kvs "id") := by
  cases dev with
  | obj kvs =>
      by_cases hid : pyTruthy (pyGet kvs "id") = true
      · simp only [processDevice, hid, eq_self_iff_true, if_true, ite_true] at hstep
        cases hres : resolveReading g kvs (pyStr (pyGet kvs "id")) with
        | error e => rw [hres] at hstep; cases hstep
        | ok r =>
            obtain ⟨t, s, tm⟩ := r
            rw [hres] at hstep
            have hmid : mid = dictSet out (pyStr (pyGet kvs "id"))
                (buildRecord maps kvs (pyStr (pyGet kvs "id")) t s tm) := by
              injection hstep with h
              exact h.symm
            intro p hp
            rw [hmid] at hp
            rcases mem_dictSet _ _ _ _ hp with h | h
            · exact Or.inl h
            · exact Or.inr ⟨kvs, rfl, hid, by rw [h]⟩
      · have hf : pyTruthy (pyGet kvs "id") = false := eq_false_of_ne_true hid
        simp only [processDevice, hf, Bool.false_eq_true, if_false, ite_false] at hstep
        intro p hp
        have hmo : mid = out := by
          injection hstep with h
          exact h.symm
        exact Or.inl (hmo ▸ hp)
  | null => cases hstep
  | bool b => cases hstep
  | int n => cases hstep
  | float q => cases hstep
  | str s => cases hstep
  | arr xs => cases hstep
  | datetime y mo d h mi se tz => cases hstep

theorem foldlM_keys (g : Get) (maps : Maps) :
    ∀ (devs : List PyVal) (out out' : List (String × PyVal)),
      List.foldlM (processDevice g maps) out devs = .ok out' →
      ∀ p ∈ out', p ∈ out ∨ KeyFromDevs devs p.1
  | [], out, out', hfold => by
      simp only [List.foldlM_nil] at hfold
      injection hfold with h
      exact fun p hp => Or.inl (h ▸ hp)
  | dev :: devs, out, out', hfold => by
      rw [List.foldlM_cons] at hfold
      cases hstep : processDevice g maps out dev with
      | error e =>
          rw [hstep] at hfold
          simp [Bind.bind, Except.bind] at hfold
      | ok mid =>
          rw [hstep] at hfold
          simp only [Bind.bind, Except.bind] at hfold
          intro p hp
          rcases foldlM_keys g maps devs mid out' hfold p hp with h | h
          · rcases processDevice_keys g maps out mid dev hstep p h with h2 | h2
            · exact Or.inl h2
            · obtain ⟨kvs, hk, ht, he⟩ := h2
              exact Or.inr ⟨dev, List.mem_cons_self _ _, kvs, hk, ht, he⟩
          · obtain ⟨d2, hd2, rest⟩ := h
            exact Or.inr ⟨d2, List.mem_cons_of_mem _ hd2, rest⟩

/-!
## Totality of the device loop on well-shaped devices
-/

/-- A device entry on which the per-device loop cannot raise: a dict
whose `latestReading`, when truthy, is itself a dict. -/
def GoodDevice (dev : PyVal) : Prop :=
  ∃ kvs : Dict, dev = .obj kvs ∧
    (pyTruthy (pyGet kvs "latestReading") = false ∨
     ∃ k2 : Dict, pyGet kvs "latestReading" = .obj k2)

theorem latestOf_obj (kvs : Dict)
    (h : pyTruthy (pyGet kvs "latestReading") = false ∨
         ∃ k2 : Dict, pyGet kvs "latestReading" = .obj k2) :
    ∃ L : Dict, latestOf kvs = .obj L := by
  have hbase : ∃ B : Dict, pyOr (pyGet kvs "latestReading") (.obj []) = .obj B := by
    rcases h with h | ⟨k2, h⟩
    · exact ⟨[], by simp [pyOr, h]⟩
    · rw [h]
      by_cases ht : pyTruthy (.obj k2) = true
      · exact ⟨k2, by simp [pyOr, ht]⟩
      · exact ⟨[], by simp [pyOr, eq_false_of_ne_true ht]⟩
  obtain ⟨B, hB⟩ := hbase
  simp only [latestOf, hB]
  cases hp : pick (.obj B) ["reading", "data", "values"] with
  | obj k2 => exact ⟨k2, rfl⟩
  | null => exact ⟨B, rfl⟩
  | bool b => exact ⟨B, rfl⟩
  | int n => exact ⟨B, rfl⟩
  | float q => exact ⟨B, rfl⟩
  | str s => exact ⟨B, rfl⟩
  | arr xs => exact ⟨B, rfl⟩
  | datetime y mo d hh mi se tz => exact ⟨B, rfl⟩

theorem nestedUnwrap_obj_ok (L : Dict) (key : String) (subkeys : List String)
    (cur : Option ℚ) : ∃ r, nestedUnwrap (.obj L) key subkeys cur = .ok r := by
  cases cur with
  | none => exact ⟨_, rfl⟩
  | some c => exact ⟨_, rfl⟩

theorem resolveReading_ok (g : Get) (kvs : Dict) (devId : String)
    (h : ∃ L : Dict, latestOf kvs = .obj L) :
    ∃ r, resolveReading g kvs devId = .ok r := by
  obtain ⟨L, hL⟩ := h
  simp only [resolveReading, hL]
  obtain ⟨r1, h1⟩ := nestedUnwrap_obj_ok L "temperature" ["celsius", "fahrenheit"]
    (as_float (pick (.obj L) tempKeys))
  rw [h1]
  obtain ⟨r2, h2⟩ := nestedUnwrap_obj_ok L "density" ["specificGravity", "plato"]
    (as_float (pick (.obj L) sgKeys))
  rw [h2]
  show ∃ r, (if (r1.isNone || r2.isNone) = true
      then Except.ok (secondaryFill g devId r1 r2
        (pyOr (pick (.obj L) timeKeys) (pick (.obj kvs) ["latestReadingTime"])))
      else Except.ok (r1, r2,
        pyOr (pick (.obj L) timeKeys) (pick (.obj kvs) ["latestReadingTime"]))) = Except.ok r
  by_cases hc : (r1.isNone || r2.isNone) = true
  · rw [if_pos hc]
    exact ⟨_, rfl⟩
  · rw [if_neg hc]
    exact ⟨_, rfl⟩

theorem processDevice_ok (g : Get) (maps : Maps) (out : List (String × PyVal))
    (dev : PyVal) (h : GoodDevice dev) :
    ∃ out', processDevice g maps out dev = .ok out' := by
  obtain ⟨kvs, hk, hgood⟩ := h
  subst hk
  by_cases hid : pyTruthy (pyGet kvs "id") = true
  · obtain ⟨r, hr⟩ := resolveReading_ok g kvs (pyStr (pyGet kvs "id")) (latestOf_obj kvs hgood)
    obtain ⟨t, s, tm⟩ := r
    refine ⟨dictSet out (pyStr (pyGet kvs "id"))
      (buildRecord maps kvs (pyStr (pyGet kvs "id")) t s tm), ?_⟩
    simp only [processDevice, hid, eq_self_iff_true, if_true, ite_true, hr]
  · have hf : pyTruthy (pyGet kvs "id") = false := eq_false_of_ne_true hid
    refine ⟨out, ?_⟩
    simp only [processDevice, hf, Bool.false_eq_true, if_false, ite_false]

theorem foldlM_ok (g : Get) (maps : Maps) :
    ∀ (devs : List PyVal) (out : List (String × PyVal)),
      (∀ d ∈ devs, GoodDevice d) →
      ∃ out', List.foldlM (processDevice g maps) out devs = .ok out'
  | [], out, _ => ⟨out, rfl⟩
  | dev :: devs, out, hgood => by
      obtain ⟨mid, hmid⟩ := processDevice_ok g maps out dev (hgood dev (List.mem_cons_self _ _))
      obtain ⟨out', hout'⟩ := foldlM_ok g maps devs mid
        (fun d hd => hgood d (List.mem_cons_of_mem _ hd))
      refine ⟨out', ?_⟩
      rw [List.foldlM_cons, hmid]
      simpa [Bind.bind, Except.bind] using hout'

/-!
## Lemmas on the fermenter-name map
-/

/-- The inner assignment fold of the fermenter loop: every id of `l`
mapped to the fixed name `v`. -/
def assignInner (v : String) (m : List (String × String)) (l : List String) :
    List (String × String) :=
  l.foldl (fun m did => dictSet m did v) m

theorem fermenterAssign_eq (m : List (String × String)) (fer : Dict) :
    fermenterAssign m fer =
      assignInner (pyStr (fermenterName fer))
        (assignInner (pyStr (fermenterName fer))
          (assignInner (pyStr (fermenterName fer)) m
            (collect_device_ids (pyGet fer "devices")))
          (collect_device_ids (pyGet fer "device")))
        (collect_device_ids
          (if pyTruthy (pyGet fer "proId") = true
           then .obj [("proId", pyGet fer "proId")] else .null)) := rfl

theorem assignInner_mem_or (v : String) (did : String) :
    ∀ (l : List String) (m : List (String × String)),
      (did ∈ l ∨ dlookup did m = some v) →
      dlookup did (assignInner v m l) = some v
  | [], m, h => by
      rcases h with h | h
      · cases h
      · exact h
  | d :: l, m, h => by
      have hnext : did ∈ l ∨ dlookup did (dictSet m d v) = some v := by
        rcases h with h | h
        · rcases List.mem_cons.mp h with h | h
          · subst h
            exact Or.inr (dlookup_dictSet_self m did v)
          · exact Or.inl h
        · by_cases hdd : did = d
          · subst hdd
            exact Or.inr (dlookup_dictSet_self m did v)
          · rw [← dlookup_dictSet_ne m d did v hdd] at h
            exact Or.inr h
      exact assignInner_mem_or v did l (dictSet m d v) hnext

theorem assignInner_isSome (v : String) (did : String) :
    ∀ (l : List String) (m : List (String × String)),
      (did ∈ l ∨ (dlookup did m).isSome) →
      (dlookup did (assignInner v m l)).isSome
  | [], m, h => by
      rcases h with h | h
      · cases h
      · exact h
  | d :: l, m, h => by
      have hnext : did ∈ l ∨ (dlookup did (dictSet m d v)).isSome := by
        rcases h with h | h
        · rcases List.mem_cons.mp h with h | h
          · subst h
            rw [dlookup_dictSet_self m did v]
            exact Or.inr rfl
          · exact Or.inl h
        · exact Or.inr (isSome_dlookup_dictSet m d did v h)
      exact assignInner_isSome v did l (dictSet m d v) hnext

theorem fermenterAssign_val (m : List (String × String)) (fer : Dict) (did : String)
    (h : did ∈ collect_device_ids (pyGet fer "devices") ∨
         did ∈ collect_device_ids (pyGet fer "device") ∨
         did ∈ collect_device_ids
           (if pyTruthy (pyGet fer "proId") = true
            then PyVal.obj [("proId", pyGet fer "proId")] else .null) ∨
         dlookup did m = some (pyStr (fermenterName fer))) :
    dlookup did (fermenterAssign m fer) = some (pyStr (fermenterName fer)) := by
  rw [fermenterAssign_eq]
  rcases h with h | h | h | h
  · exact assignInner_mem_or _ _ _ _ (Or.inr (assignInner_mem_or _ _ _ _
      (Or.inr (assignInner_mem_or _ _ _ _ (Or.inl h)))))
  · exact assignInner_mem_or _ _ _ _ (Or.inr (assignInner_mem_or _ _ _ _ (Or.inl h)))
  · exact assignInner_mem_or _ _ _ _ (Or.inl h)
  · exact assignInner_mem_or _ _ _ _ (Or.inr (assignInner_mem_or _ _ _ _
      (Or.inr (assignInner_mem_or _ _ _ _ (Or.inr h)))))

theorem fermenterAssign_isSome (m : List (String × String)) (fer : Dict) (did : String)
    (h : did ∈ collect_device_ids (pyGet fer "devices") ∨ (dlookup did m).isSome) :
    (dlookup did (fermenterAssign m fer)).isSome := by
  rw [fermenterAssign_eq]
  rcases h with h | h
  · exact assignInner_isSome _ _ _ _ (Or.inr (assignInner_isSome _ _ _ _
      (Or.inr (assignInner_isSome _ _ _ _ (Or.inl h)))))
  · exact assignInner_isSome _ _ _ _ (Or.inr (assignInner_isSome _ _ _ _
      (Or.inr (assignInner_isSome _ _ _ _ (Or.inr h)))))

theorem buildFold_isSome (did : String) :
    ∀ (fs : List Dict) (m : List (String × String)),
      (dlookup did m).isSome →
      (dlookup did (fs.foldl fermenterAssign m)).isSome
  | [], _, h => h
  | fer :: fs, m, h =>
      buildFold_isSome did fs (fermenterAssign m fer)
        (fermenterAssign_isSome m fer did (Or.inr h))

theorem buildFermenterMap_isSome (fs : List Dict) (fer : Dict) (did : String)
    (hf : fer ∈ fs) (hd : did ∈ collect_device_ids (pyGet fer "devices")) :
    (dlookup did (buildFermenterMap fs)).isSome := by
  obtain ⟨s, t, rfl⟩ := List.append_of_mem hf
  unfold buildFermenterMap
  rw [List.foldl_append]
  rw [List.foldl_cons]
  exact buildFold_isSome did t _ (fermenterAssign_isSome _ fer did (Or.inl hd))

/-!
## Claim theorems
-/

set_option maxRecDepth 100000

/-- Oracle for the C1 scenario: the first reading candidate
(`limit=1`) succeeds with an empty list, the second (`take=1`) would
succeed with a usable reading, everything else raises. -/
def gScenC1 : Get := fun path ps =>
  if path = "/devices/d1/readings" && ps = some [("limit", 1)] then .ok (.arr [])
  else if path = "/devices/d1/readings" && ps = some [("take", 1)] then
    .ok (.arr [.obj [("temperature", .float 20)]])
  else .error ()

/-- C1 counterexample: with the first candidate succeeding on an empty
list and the second candidate holding a usable reading, the secondary
lookup returns `None` — it does not proceed to the `take=1` candidate
as the claim states. -/
theorem claim_C1_cex :
    gScenC1 "/devices/d1/readings" (some [("limit", 1)]) = .ok (.arr []) ∧
    gScenC1 "/devices/d1/readings" (some [("take", 1)]) =
      .ok (.arr [.obj [("temperature", .float 20)]]) ∧
    getLatestReading gScenC1 "d1" = PyVal.null := by
  refine ⟨rfl, rfl, rfl⟩

/-- C1 amended: the candidate loop of `_get_latest_reading` stops at
the first candidate whose request does not raise — only raising
candidates are skipped.  A first candidate that succeeds determines
the result via `extractReading`; in particular a successful empty-list
response yields `None` immediately, without trying `take=1`. -/
theorem claim_C1 (g : Get) (id : String) (d : PyVal)
    (h : g ("/devices/" ++ id ++ "/readings") (some [("limit", 1)]) = .ok d) :
    getLatestReading g id = extractReading d := by
  simp only [getLatestReading, readingCandidates, getLatestCore, h]

/-- C1 witness: the amended theorem applied to the concrete scenario. -/
theorem claim_C1_witness : getLatestReading gScenC1 "d1" = extractReading (.arr []) :=
  claim_C1 gScenC1 "d1" (.arr []) rfl

/-- C3: the permissive float parser (`as_float`).  `None`, lists and
dicts give `None`; ints and floats give the corresponding float;
strings are parsed after stripping surrounding whitespace, giving the
corresponding float for a numeric string and `None` otherwise.  The
embedding is a total function: the parser never raises. -/
theorem claim_C3 :
    (as_float .null = none)
    ∧ (∀ n : ℤ, as_float (.int n) = some (n : ℚ))
    ∧ (∀ q : ℚ, as_float (.float q) = some q)
    ∧ (∀ s : String, as_float (.str s) = pyFloatOfString (pyStrip s))
    ∧ (∀ xs : List PyVal, as_float (.arr xs) = none)
    ∧ (∀ kvs : Dict, as_float (.obj kvs) = none)
    ∧ (as_float (.str " 3.5 ") = some (7 / 2))
    ∧ (as_float (.str "42") = some 42)
    ∧ (as_float (.str "abc") = none)
    ∧ (as_float (.str "") = none) := by
  refine ⟨rfl, fun n => rfl, fun q => rfl, fun s => rfl, fun xs => rfl, fun kvs => rfl,
    ?_, ?_, rfl, rfl⟩
  · have h : as_float (.str " 3.5 ") =
        some ((1 : ℚ) * (((3 : ℕ) : ℚ) + ((5 : ℕ) : ℚ) / 10 ^ 1) * 10 ^ (0 : ℤ).toNat) := rfl
    rw [h]
    norm_num
  · have h : as_float (.str "42") =
        some ((1 : ℚ) * ((42 : ℕ) : ℚ) * 10 ^ (0 : ℤ).toNat) := rfl
    rw [h]
    norm_num

/-- C4: the timestamp branch of `native_value`.  Datetimes and `None`
pass through unchanged; a string parses via `fromisoformat` after
`"Z" → "+00:00"` replacement, the parsed instant being returned on
success and the raw string (not `None`) on failure; the spec's example
with a trailing `"Z"` yields a timezone-aware instant with UTC
offset 0. -/
theorem claim_C4 :
    (∀ (y mo d h mi s : ℕ) (tz : Option Int),
        nativeValueTime (.datetime y mo d h mi s tz) = .datetime y mo d h mi s tz)
    ∧ (nativeValueTime .null = .null)
    ∧ (∀ s : String, fromisoformat (replaceZ s) = none →
        nativeValueTime (.str s) = .str s)
    ∧ (∀ (s : String) (dt : PyVal), fromisoformat (replaceZ s) = some dt →
        nativeValueTime (.str s) = dt)
    ∧ (nativeValueTime (.str "2024-06-01T12:00:00Z") =
        .datetime 2024 6 1 12 0 0 (some 0))
    ∧ (nativeValueTime (.str "not-a-date") = .str "not-a-date") := by
  refine ⟨fun y mo d h mi s tz => rfl, rfl, ?_, ?_, rfl, rfl⟩
  · intro s h
    simp only [nativeValueTime, h]
  · intro s dt h
    simp only [nativeValueTime, h]

/-- C4 witness: the parse-failure conjunct applied at "not-a-date" and
the parse-success conjunct applied at the spec's trailing-Z example. -/
theorem claim_C4_witness :
    nativeValueTime (.str "not-a-date") = .str "not-a-date" ∧
    nativeValueTime (.str "2024-06-01T12:00:00Z") = .datetime 2024 6 1 12 0 0 (some 0) :=
  ⟨claim_C4.2.2.1 "not-a-date" rfl,
   claim_C4.2.2.2.1 "2024-06-01T12:00:00Z" (.datetime 2024 6 1 12 0 0 (some 0)) rfl⟩

/-- C7: the gravity-points derivation.  A numeric `density` (float or
int) yields `round((sg - 1.0) * 1000)`; a numeric string is parsed
first; a non-numeric string, an absent (null) value, a list or a dict
yields `None`.  The spec's examples: 1.0487 → 49, 1.0 → 0,
null → null. -/
theorem claim_C7 :
    (∀ (payload : Dict) (q : ℚ), pyGet payload "density" = .float q →
        gravityPointsValue payload = .int (pyRound ((q - 1) * 1000)))
    ∧ (∀ (payload : Dict) (n : ℤ), pyGet payload "density" = .int n →
        gravityPointsValue payload = .int (pyRound (((n : ℚ) - 1) * 1000)))
    ∧ (∀ (payload : Dict) (s : String) (q : ℚ), pyGet payload "density" = .str s →
        pyFloatOfString (pyStrip s) = some q →
        gravityPointsValue payload = .int (pyRound ((q - 1) * 1000)))
    ∧ (∀ (payload : Dict) (s : String), pyGet payload "density" = .str s →
        pyFloatOfString (pyStrip s) = none → gravityPointsValue payload = .null)
    ∧ (∀ payload : Dict, pyGet payload "density" = .null →
        gravityPointsValue payload = .null)
    ∧ (∀ (payload : Dict) (xs : List PyVal), pyGet payload "density" = .arr xs →
        gravityPointsValue payload = .null)
    ∧ (∀ (payload : Dict) (kvs : Dict), pyGet payload "density" = .obj kvs →
        gravityPointsValue payload = .null)
    ∧ (gravityPointsValue [("density", .float (10487 / 10000))] = .int 49)
    ∧ (gravityPointsValue [("density", .float 1)] = .int 0)
    ∧ (gravityPointsValue [("density", .null)] = .null) := by
  refine ⟨?_, ?_, ?_, ?_, ?_, ?_, ?_, ?_, ?_, rfl⟩
  · intro payload q h
    simp only [gravityPointsValue, h]
  · intro payload n h
    simp only [gravityPointsValue, h]
  · intro payload s q h hp
    simp only [gravityPointsValue, h, hp]
  · intro payload s h hp
    simp only [gravityPointsValue, h, hp]
  · intro payload h
    simp only [gravityPointsValue, h]
  · intro payload xs h
    simp only [gravityPointsValue, h]
  · intro payload kvs h
    simp only [gravityPointsValue, h]
  · show PyVal.int (pyRound ((10487 / 10000 - 1) * 1000)) = .int 49
    have : pyRound ((10487 / 10000 - 1 : ℚ) * 1000) = 49 := by norm_num [pyRound]
    rw [this]
  · show PyVal.int (pyRound ((1 - 1) * 1000)) = .int 0
    have : pyRound (((1 : ℚ) - 1) * 1000) = 0 := by norm_num [pyRound]
    rw [this]

/-- C7 witness: the numeric-gravity conjunct applied at the spec's
1.0487 payload. -/
theorem claim_C7_witness :
    gravityPointsValue [("density", .float (10487 / 10000))] =
      .int (pyRound ((10487 / 10000 - 1) * 1000)) :=
  claim_C7.1 [("density", .float (10487 / 10000))] (10487 / 10000) rfl

/-- C9: missing batch flags default to the most-active reading — a
batch with no `enabled`, `archived` or `end` field ranks
(1, 1, 1, _) and therefore outranks every batch whose `enabled` field
is identically `False`. -/
theorem claim_C9 (b1 b2 : Dict)
    (h1 : dlookup "enabled" b1 = none) (h2 : dlookup "archived" b1 = none)
    (h3 : dlookup "end" b1 = none) (h4 : pyGet b2 "enabled" = .bool false) :
    (batch_rank b1).1 = 1 ∧ (batch_rank b1).2.1 = 1 ∧ (batch_rank b1).2.2.1 = 1 ∧
    rankLt (batch_rank b2) (batch_rank b1) = true := by
  have e1 : (batch_rank b1).1 = 1 := by
    simp [batch_rank, pyGet, h1, PyVal.isFalseLit]
  have e2 : (batch_rank b1).2.1 = 1 := by
    simp [batch_rank, pyGet, h2, PyVal.isTrueLit]
  have e3 : (batch_rank b1).2.2.1 = 1 := by
    simp [batch_rank, pyGet, h3, PyVal.isNull]
  have e4 : (batch_rank b2).1 = 0 := by
    simp [batch_rank, h4, PyVal.isFalseLit]
  refine ⟨e1, e2, e3, ?_⟩
  simp [rankLt, e1, e4]

/-- C9 witness: a batch carrying only a recency field versus a
disabled batch with a newer recency string. -/
theorem claim_C9_witness :
    (batch_rank [("updatedAt", PyVal.str "2024-06-01")]).1 = 1 ∧
    (batch_rank [("updatedAt", PyVal.str "2024-06-01")]).2.1 = 1 ∧
    (batch_rank [("updatedAt", PyVal.str "2024-06-01")]).2.2.1 = 1 ∧
    rankLt (batch_rank [("enabled", PyVal.bool false), ("updatedAt", PyVal.str "2025-12-31")])
      (batch_rank [("updatedAt", PyVal.str "2024-06-01")]) = true :=
  claim_C9 [("updatedAt", PyVal.str "2024-06-01")]
    [("enabled", PyVal.bool false), ("updatedAt", PyVal.str "2025-12-31")]
    rfl rfl rfl rfl

/-- C2: the best-batch selection.  (i) Whenever the
`device_id_to_best_batch` map sends a device id to a batch, that batch
is drawn from the batch list, names the device, and is outranked by no
batch of the list naming that device — the association is a function,
so each id has at most one best batch, a maximum under the rank.
(ii) A batch with `enabled=true, archived=false, end=null` outranks
every batch with `enabled=false` regardless of recency.  (iii) Among
batches equal on the three flags, the one with the lexicographically
greater recency string ranks strictly higher. -/
theorem claim_C2 :
    (∀ (batches : List Dict) (did : String) (b : Dict),
        dlookup did (buildBestBatchMap batches) = some b →
        b ∈ batches ∧ did ∈ batchIds b ∧
          ∀ b' ∈ batches, did ∈ batchIds b' →
            rankLt (batch_rank b) (batch_rank b') = false)
    ∧ (∀ b1 b2 : Dict,
        pyGet b1 "enabled" = .bool true → pyGet b1 "archived" = .bool false →
        pyGet b1 "end" = .null → pyGet b2 "enabled" = .bool false →
        (batch_rank b1).1 = 1 ∧ (batch_rank b1).2.1 = 1 ∧ (batch_rank b1).2.2.1 = 1 ∧
        rankLt (batch_rank b2) (batch_rank b1) = true)
    ∧ (∀ b1 b2 : Dict,
        (batch_rank b1).1 = (batch_rank b2).1 →
        (batch_rank b1).2.1 = (batch_rank b2).2.1 →
        (batch_rank b1).2.2.1 = (batch_rank b2).2.2.1 →
        strLt (batch_rank b1).2.2.2 (batch_rank b2).2.2.2 = true →
        rankLt (batch_rank b1) (batch_rank b2) = true) := by
  refine ⟨?_, ?_, ?_⟩
  · intro batches did b hb
    exact (bestInv_buildBestBatchMap batches).1 did b hb
  · intro b1 b2 h1 h2 h3 h4
    have e1 : (batch_rank b1).1 = 1 := by
      simp [batch_rank, h1, PyVal.isFalseLit]
    have e2 : (batch_rank b1).2.1 = 1 := by
      simp [batch_rank, h2, PyVal.isTrueLit]
    have e3 : (batch_rank b1).2.2.1 = 1 := by
      simp [batch_rank, h3, PyVal.isNull]
    have e4 : (batch_rank b2).1 = 0 := by
      simp [batch_rank, h4, PyVal.isFalseLit]
    exact ⟨e1, e2, e3, by simp [rankLt, e1, e4]⟩
  · intro b1 b2 h1 h2 h3 h4
    simp [rankLt, h1, h2, h3, h4]

/-- C2 witness: a disabled batch with a newer timestamp loses to an
unflagged batch (an instance of conjunct (i) at a concrete batch list,
where the map is fully evaluated), and concrete instances of the
outranking conjuncts. -/
theorem claim_C2_witness :
    ([("name", PyVal.str "new"), ("devices", PyVal.arr [PyVal.str "d1"]),
        ("updatedAt", PyVal.str "2024-06-01")] ∈
      ([[("name", PyVal.str "old"), ("devices", PyVal.arr [PyVal.str "d1"]),
          ("enabled", PyVal.bool false), ("updatedAt", PyVal.str "2025-01-01")],
        [("name", PyVal.str "new"), ("devices", PyVal.arr [PyVal.str "d1"]),
          ("updatedAt", PyVal.str "2024-06-01")]] : List Dict) ∧
      "d1" ∈ batchIds [("name", PyVal.str "new"), ("devices", PyVal.arr [PyVal.str "d1"]),
        ("updatedAt", PyVal.str "2024-06-01")] ∧
      ∀ b' ∈ ([[("name", PyVal.str "old"), ("devices", PyVal.arr [PyVal.str "d1"]),
          ("enabled", PyVal.bool false), ("updatedAt", PyVal.str "2025-01-01")],
        [("name", PyVal.str "new"), ("devices", PyVal.arr [PyVal.str "d1"]),
          ("updatedAt", PyVal.str "2024-06-01")]] : List Dict),
        "d1" ∈ batchIds b' →
        rankLt (batch_rank [("name", PyVal.str "new"),
          ("devices", PyVal.arr [PyVal.str "d1"]),
          ("updatedAt", PyVal.str "2024-06-01")]) (batch_rank b') = false) ∧
    (rankLt (batch_rank [("enabled", PyVal.bool false), ("updatedAt", PyVal.str "2025-01-01")])
      (batch_rank [("enabled", PyVal.bool true), ("archived", PyVal.bool false),
        ("end", PyVal.null), ("updatedAt", PyVal.str "2024-06-01")]) = true) ∧
    (rankLt (batch_rank [("updatedAt", PyVal.str "2024-06-01")])
      (batch_rank [("updatedAt", PyVal.str "2024-06-02")]) = true) :=
  ⟨claim_C2.1
      [[("name", PyVal.str "old"), ("devices", PyVal.arr [PyVal.str "d1"]),
          ("enabled", PyVal.bool false), ("updatedAt", PyVal.str "2025-01-01")],
        [("name", PyVal.str "new"), ("devices", PyVal.arr [PyVal.str "d1"]),
          ("updatedAt", PyVal.str "2024-06-01")]]
      "d1"
      [("name", PyVal.str "new"), ("devices", PyVal.arr [PyVal.str "d1"]),
        ("updatedAt", PyVal.str "2024-06-01")]
      rfl,
   (claim_C2.2.1 [("enabled", PyVal.bool true), ("archived", PyVal.bool false),
      ("end", PyVal.null), ("updatedAt", PyVal.str "2024-06-01")]
      [("enabled", PyVal.bool false), ("updatedAt", PyVal.str "2025-01-01")]
      rfl rfl rfl rfl).2.2.2,
   claim_C2.2.2 [("updatedAt", PyVal.str "2024-06-01")]
      [("updatedAt", PyVal.str "2024-06-02")] rfl rfl rfl rfl⟩

/-- C5: the device-to-fermenter association.  For a fermenter whose
`devices` field is `["d1", {"id": "d2"}]`, both ids end up as keys of
the map built over any fermenter list containing it, and in the
single-fermenter map both map to `str(fer_name)`.  The three supported
reference shapes: a list of plain string ids collects exactly those
ids, an identifier-bearing object contributes its `id`, and a truthy
`proId` cross-reference field maps `str(proId)` to the fermenter's
name. -/
theorem claim_C5 :
    (∀ (fs : List Dict) (fer : Dict), fer ∈ fs →
        pyGet fer "devices" = .arr [.str "d1", .obj [("id", .str "d2")]] →
        (dlookup "d1" (buildFermenterMap fs)).isSome ∧
        (dlookup "d2" (buildFermenterMap fs)).isSome)
    ∧ (∀ fer : Dict, pyGet fer "devices" = .arr [.str "d1", .obj [("id", .str "d2")]] →
        dlookup "d1" (buildFermenterMap [fer]) = some (pyStr (fermenterName fer)) ∧
        dlookup "d2" (buildFermenterMap [fer]) = some (pyStr (fermenterName fer)))
    ∧ (∀ ss : List String, collect_device_ids (.arr (ss.map PyVal.str)) = ss)
    ∧ (∀ s : String, s ≠ "" → collect_device_ids (.arr [.obj [("id", .str s)]]) = [s])
    ∧ (∀ fer : Dict, pyTruthy (pyGet fer "proId") = true →
        dlookup (pyStr (pyGet fer "proId")) (buildFermenterMap [fer]) =
          some (pyStr (fermenterName fer))) := by
  have hmem1 : ∀ fer : Dict,
      pyGet fer "devices" = .arr [.str "d1", .obj [("id", .str "d2")]] →
      "d1" ∈ collect_device_ids (pyGet fer "devices") := by
    intro fer h
    rw [h]
    simp [collect_device_ids, idsFromList, idFromListItem]
  have hmem2 : ∀ fer : Dict,
      pyGet fer "devices" = .arr [.str "d1", .obj [("id", .str "d2")]] →
      "d2" ∈ collect_device_ids (pyGet fer "devices") := by
    intro fer h
    rw [h]
    simp [collect_device_ids, idsFromList, idFromListItem, pyOr, pyGet, dlookup, pyTruthy,
      pyStr]
  refine ⟨?_, ?_, ?_, ?_, ?_⟩
  · intro fs fer hf hdev
    exact ⟨buildFermenterMap_isSome fs fer "d1" hf (hmem1 fer hdev),
      buildFermenterMap_isSome fs fer "d2" hf (hmem2 fer hdev)⟩
  · intro fer hdev
    constructor
    · exact fermenterAssign_val [] fer "d1" (Or.inl (hmem1 fer hdev))
    · exact fermenterAssign_val [] fer "d2" (Or.inl (hmem2 fer hdev))
  · intro ss
    show idsFromList (ss.map PyVal.str) = ss
    induction ss with
    | nil => rfl
    | cons s ss ih =>
        show s :: idsFromList (ss.map PyVal.str) = s :: ss
        rw [ih]
  · intro s hs
    have hd : s.data ≠ [] := by
      intro hdd
      apply hs
      have h2 : s = ⟨s.data⟩ := rfl
      rw [h2, hdd]
    show idFromListItem (.obj [("id", .str s)]) ++ [] = [s]
    simp [idFromListItem, pyOr, pyGet, dlookup, pyTruthy, pyStr, hd]
  · intro fer hp
    apply fermenterAssign_val [] fer (pyStr (pyGet fer "proId"))
    refine Or.inr (Or.inr (Or.inl ?_))
    rw [if_pos hp]
    have hp' : pyTruthy ((dlookup "proId" fer).getD PyVal.null) = true := hp
    simp [collect_device_ids, pyGet, dlookup, hp']

/-- C5 witness: the claim applied to the concrete one-fermenter list
`[{"name": "FV1", "devices": ["d1", {"id": "d2"}]}]`. -/
theorem claim_C5_witness :
    dlookup "d1" (buildFermenterMap
      [[("name", PyVal.str "FV1"),
        ("devices", PyVal.arr [.str "d1", .obj [("id", .str "d2")]])]]) =
      some (pyStr (fermenterName
        [("name", PyVal.str "FV1"),
         ("devices", PyVal.arr [.str "d1", .obj [("id", .str "d2")]])])) ∧
    dlookup "d2" (buildFermenterMap
      [[("name", PyVal.str "FV1"),
        ("devices", PyVal.arr [.str "d1", .obj [("id", .str "d2")]])]]) =
      some (pyStr (fermenterName
        [("name", PyVal.str "FV1"),
         ("devices", PyVal.arr [.str "d1", .obj [("id", .str "d2")]])])) :=
  claim_C5.2.1
    [("name", PyVal.str "FV1"),
     ("devices", PyVal.arr [.str "d1", .obj [("id", .str "d2")]])] rfl

/-- Decomposition of a successful `fetch_readings` run. -/
theorem fetch_readings_ok_elim (g : Get) (out : List (String × PyVal))
    (h : fetch_readings g = .ok out) :
    ∃ (devices : PyVal) (devList : List PyVal),
      g "/devices" none = .ok devices ∧
      pyIter (if pyTruthy devices then devices else .arr []) = .ok devList ∧
      devList.foldlM (processDevice g
        ⟨buildFermenterMap (fetchFermenters g), buildBestBatchMap (fetchBatches g)⟩)
        [] = .ok out := by
  cases hdev : g "/devices" none with
  | error e =>
      rw [fetch_readings, hdev] at h
      cases h
  | ok devices =>
      simp only [fetch_readings, hdev] at h
      cases hiter : pyIter (if pyTruthy devices then devices else .arr []) with
      | error e =>
          rw [hiter] at h
          cases h
      | ok devList =>
          rw [hiter] at h
          exact ⟨devices, devList, rfl, hiter, h⟩

/-- All-raise behaviour of the `/batches` retry loop. -/
theorem fetchBatchesLoop_allError (g : Get) :
    ∀ (ps : List Params) (acc : List Dict),
      (∀ p ∈ ps, g "/batches" p = .error ()) →
      fetchBatchesLoop g ps acc = acc
  | [], acc, _ => rfl
  | p :: ps, acc, h => by
      rw [fetchBatchesLoop, h p (List.mem_cons_self _ _)]
      exact fetchBatchesLoop_allError g ps acc
        (fun p' hp' => h p' (List.mem_cons_of_mem _ hp'))

/-- Oracle for the C6 scenario: only the device list succeeds (one
well-shaped device); fermenter, batch and secondary-reading requests
all raise. -/
def gScenC6 : Get := fun path _ =>
  if path = "/devices" then .ok (.arr [.obj [("id", .str "d1")]]) else .error ()

/-- Oracle for the C6 fatal scenario: every request raises. -/
def gScenC6fail : Get := fun _ _ => .error ()

/-- C6: the error taxonomy of a poll cycle.  (i) A raised `/devices`
request fails the whole cycle.  (ii) A raised `/fermenters` request
degrades to the empty fermenter collection.  (iii) `/batches` requests
raising for every parameter variant degrade to the empty batch
collection.  (iv) With `/devices` succeeding on a list of well-shaped
devices, the cycle still produces an output mapping regardless of any
other request raising. -/
theorem claim_C6 :
    (∀ g : Get, g "/devices" none = .error () → fetch_readings g = .error ())
    ∧ (∀ g : Get, g "/fermenters" none = .error () → fetchFermenters g = [])
    ∧ (∀ g : Get, (∀ p ∈ batchParamVariants, g "/batches" p = .error ()) →
        fetchBatches g = [])
    ∧ (∀ (g : Get) (ds : List PyVal), g "/devices" none = .ok (.arr ds) →
        (∀ d ∈ ds, GoodDevice d) → ∃ out, fetch_readings g = .ok out) := by
  refine ⟨?_, ?_, ?_, ?_⟩
  · intro g h
    rw [fetch_readings, h]
  · intro g h
    rw [fetchFermenters, h]
  · intro g h
    exact fetchBatchesLoop_allError g batchParamVariants [] h
  · intro g ds hdev hgood
    simp only [fetch_readings, hdev]
    by_cases ht : pyTruthy (.arr ds) = true
    · rw [if_pos ht]
      obtain ⟨out, hout⟩ := foldlM_ok g
        ⟨buildFermenterMap (fetchFermenters g), buildBestBatchMap (fetchBatches g)⟩
        ds [] hgood
      exact ⟨out, hout⟩
    · rw [if_neg ht]
      exact ⟨[], rfl⟩

/-- C6 witness: the four conjuncts applied at concrete oracles — the
all-raising oracle fails the cycle, and the devices-only oracle
degrades fermenters and batches to `[]` yet produces an output. -/
theorem claim_C6_witness :
    fetch_readings gScenC6fail = .error () ∧
    fetchFermenters gScenC6 = [] ∧
    fetchBatches gScenC6 = [] ∧
    ∃ out, fetch_readings gScenC6 = .ok out :=
  ⟨claim_C6.1 gScenC6fail rfl,
   claim_C6.2.1 gScenC6 rfl,
   claim_C6.2.2.1 gScenC6 (fun p _ => rfl),
   claim_C6.2.2.2 gScenC6 [.obj [("id", .str "d1")]] rfl
     (fun d hd => by
        rw [List.mem_singleton.mp hd]
        exact ⟨[("id", .str "d1")], rfl, Or.inl rfl⟩)⟩

/-- Oracle for the C8 scenario: one device with a truthy non-string
name; everything else raises. -/
def gScenC8 : Get := fun path _ =>
  if path = "/devices" then .ok (.arr [.obj [("id", .str "d1"), ("name", .int 42)]])
  else .error ()

/-- C8 counterexample: a device whose `name` field is the truthy
integer 42 produces a record whose `name` is the integer 42 — non-null
but not a string, refuting "name is always a non-null string". -/
theorem claim_C8_cex :
    fetch_readings gScenC8 = .ok [("d1", PyVal.obj
      [("name", PyVal.int 42), ("batteryLevel", .null), ("wifiStrength", .null),
       ("temperature", .null), ("density", .null), ("time", .null),
       ("fermenter", .null), ("batch", .null)])] ∧
    (match pyGet [("name", PyVal.int 42), ("batteryLevel", .null),
        ("wifiStrength", .null), ("temperature", .null), ("density", .null),
        ("time", .null), ("fermenter", .null), ("batch", .null)] "name" with
     | PyVal.str _ => False
     | _ => True) :=
  ⟨rfl, trivial⟩

/-- C8 amended: every record of a successful `fetch_readings` run is a
dict with exactly the fields `name, batteryLevel, wifiStrength,
temperature, density, time, fermenter, batch` in order, and its `name`
is truthy — hence non-null — though not necessarily a string (the
device's raw `name` value is kept whenever truthy). -/
theorem claim_C8 (g : Get) (out : List (String × PyVal))
    (h : fetch_readings g = .ok out) : ∀ p ∈ out, RecordOK p.2 := by
  obtain ⟨devices, devList, _, _, hfold⟩ := fetch_readings_ok_elim g out h
  exact foldlM_records g _ devList [] out hfold (fun p hp => absurd hp (List.not_mem_nil p))

/-- C8 witness: the amended theorem applied to the concrete C8 run. -/
theorem claim_C8_witness :
    RecordOK (PyVal.obj
      [("name", PyVal.int 42), ("batteryLevel", .null), ("wifiStrength", .null),
       ("temperature", .null), ("density", .null), ("time", .null),
       ("fermenter", .null), ("batch", .null)]) :=
  claim_C8 gScenC8 [("d1", PyVal.obj
      [("name", PyVal.int 42), ("batteryLevel", .null), ("wifiStrength", .null),
       ("temperature", .null), ("density", .null), ("time", .null),
       ("fermenter", .null), ("batch", .null)])] rfl
    _ (List.mem_singleton.mpr rfl)

/-- Oracle for the C10 scenario: two devices, one with a truthy id and
one with the falsy id `""`; everything else raises. -/
def gScenC10 : Get := fun path _ =>
  if path = "/devices" then .ok (.arr [.obj [("id", .str "d1")], .obj [("id", .str "")]])
  else .error ()

/-- C10: devices with absent or falsy ids are silently skipped — the
per-device step leaves the output untouched for them — and every key
of a successful run's output mapping is `str(id)` for the truthy `id`
of some device of the `/devices` list. -/
theorem claim_C10 :
    (∀ (g : Get) (maps : Maps) (out : List (String × PyVal)) (kvs : Dict),
        pyTruthy (pyGet kvs "id") = false →
        processDevice g maps out (.obj kvs) = .ok out)
    ∧ (∀ (g : Get) (ds : List PyVal) (out : List (String × PyVal)),
        g "/devices" none = .ok (.arr ds) → fetch_readings g = .ok out →
        ∀ p ∈ out, KeyFromDevs ds p.1) := by
  constructor
  · intro g maps out kvs h
    simp only [processDevice, h, Bool.false_eq_true, if_false, ite_false]
  · intro g ds out hdev hrun p hp
    obtain ⟨devices, devList, hdev', hiter, hfold⟩ := fetch_readings_ok_elim g out hrun
    rw [hdev] at hdev'
    have hde : PyVal.arr ds = devices := by injection hdev'
    subst hde
    have hkey := foldlM_keys g _ devList [] out hfold p hp
    by_cases ht : pyTruthy (.arr ds) = true
    · rw [if_pos ht] at hiter
      have hdl : ds = devList := by injection hiter
      subst hdl
      rcases hkey with hk | hk
      · exact absurd hk (List.not_mem_nil p)
      · exact hk
    · rw [if_neg ht] at hiter
      have hdl : ([] : List PyVal) = devList := by injection hiter
      rcases hkey with hk | hk
      · exact absurd hk (List.not_mem_nil p)
      · obtain ⟨dev, hdev2, _⟩ := hk
        rw [← hdl] at hdev2
        exact absurd hdev2 (List.not_mem_nil dev)

/-- C10 witness: on the concrete two-device list the falsy-id device
contributes nothing and the single output key `"d1"` originates from
the truthy-id device. -/
theorem claim_C10_witness :
    processDevice gScenC10 ⟨[], []⟩ [] (.obj [("id", PyVal.str "")]) = .ok [] ∧
    KeyFromDevs [.obj [("id", PyVal.str "d1")], .obj [("id", PyVal.str "")]] "d1" :=
  ⟨claim_C10.1 gScenC10 ⟨[], []⟩ [] [("id", PyVal.str "")] rfl,
   claim_C10.2 gScenC10 [.obj [("id", PyVal.str "d1")], .obj [("id", PyVal.str "")]]
     [("d1", PyVal.obj
       [("name", PyVal.str "Plaato d1"), ("batteryLevel", .null), ("wifiStrength", .null),
        ("temperature", .null), ("density", .null), ("time", .null),
        ("fermenter", .null), ("batch", .null)])] rfl rfl
     _ (List.mem_singleton.mpr rfl)⟩
